import Mathlib

/-!
Verification of the yogaya-cli credential store, parsers, init command and
per-region import pipeline.  Go code is shallowly embedded: Go strings become
`List Char`, external effects (file system, subprocesses, the SHA-256 library,
wall-clock time) become explicit parameters or oracles, and Go runtime panics
become `Option.none`.
-/

namespace Yogaya

/-- Go strings are modelled as lists of characters so that every string
operation reduces structurally. -/
abbrev GoStr := List Char

/-- Models Go `strings.Split(s, sep)` for a one-character separator `sep`
(the code only splits on `"\n"` and `":"`).  Go returns the substrings
between the separators; splitting the empty string yields `[""]`. -/
def splitOnChar (sep : Char) : GoStr → List GoStr
  | [] => [[]]
  | c :: cs =>
    if c = sep then [] :: splitOnChar sep cs
    else
      match splitOnChar sep cs with
      | [] => [[c]]
      | g :: gs => (c :: g) :: gs

/-- Drops the matching characters from the end of a Go string. -/
def dropWhileEnd (p : Char → Bool) (s : GoStr) : GoStr :=
  (s.reverse.dropWhile p).reverse

/-- Models Go `strings.Trim(s, cutset)` for a one-character cutset (the code
trims `"\""`). -/
def goTrim (cut : Char) (s : GoStr) : GoStr :=
  dropWhileEnd (· = cut) (s.dropWhile (· = cut))

/-- Models Go `strings.TrimSpace` (leading and trailing white space is
removed; `Char.isWhitespace` stands in for `unicode.IsSpace`). -/
def goTrimSpace (s : GoStr) : GoStr :=
  dropWhileEnd Char.isWhitespace (s.dropWhile Char.isWhitespace)

/-- Splits off the part of a Go string before the first occurrence of `sep`,
returning `none` when `sep` does not occur. -/
def breakAtChar (sep : Char) : GoStr → Option (GoStr × GoStr)
  | [] => none
  | c :: cs =>
    if c = sep then some ([], cs)
    else (breakAtChar sep cs).map fun p => (c :: p.1, p.2)

/-- Models Go `strings.SplitN(s, sep, 2)` for a one-character separator: the
result has two elements when `sep` occurs in `s` and otherwise only one —
which is what makes the unchecked index `[1]` in the credential parser able
to panic. -/
def goSplitN2 (sep : Char) (s : GoStr) : List GoStr :=
  match breakAtChar sep s with
  | none => [s]
  | some (a, b) => [a, b]

/-- Models Go `strings.TrimPrefix(s, p)`. -/
def goTrimPfx (p s : GoStr) : GoStr :=
  if p.isPrefixOf s then s.drop p.length else s

/-- AWS credential fields, from `AWSCredentials` in `cmd/add.go`. -/
structure AWSCredentials where
  accessKeyID : GoStr
  secretAccessKey : GoStr
  region : GoStr
deriving DecidableEq

/-- GCP credential fields, from `GCPCloudCredentials` in `cmd/add.go`. -/
structure GCPCloudCredentials where
  projectID : GoStr
  privateKeyID : GoStr
  privateKey : GoStr
  clientEmail : GoStr
  clientID : GoStr
deriving DecidableEq

/-- Azure credential fields, from `AzureCredentials` in `cmd/add.go`. -/
structure AzureCredentials where
  subscriptionID : GoStr
  tenantID : GoStr
  clientID : GoStr
  clientSecret : GoStr
deriving DecidableEq

/-- The per-provider credential record, from `CloudCredentials` in
`cmd/add.go`. -/
structure CloudCredentials where
  aws : AWSCredentials
  gcp : GCPCloudCredentials
  azure : AzureCredentials
deriving DecidableEq

/-- The Go zero value `&CloudCredentials{}`. -/
def CloudCredentials.empty : CloudCredentials :=
  ⟨⟨[], [], []⟩, ⟨[], [], [], [], []⟩, ⟨[], [], [], []⟩⟩

/-- One pass of the loop body of `parseGCPAndAzureCredentials` in
`cmd/add.go`: a `none` result models the Go runtime panic raised by the
unchecked index `strings.SplitN(line, ":", 2)[1]` when the line contains no
`':'`. -/
def parseCredLine (provider : GoStr) (creds : CloudCredentials) (line : GoStr) :
    Option CloudCredentials :=
  if line = [] ∨ [';'].isPrefixOf line ∨ ['#'].isPrefixOf line then some creds
  else
    let pfx := goTrim '"' ((splitOnChar ':' (goTrimSpace line)).headD [])
    let value : Option GoStr :=
      ((goSplitN2 ':' line).get? 1).map fun v => goTrimPfx [' '] (goTrim '"' v)
    if provider = "gcp".toList then
      if "project_id".toList.isPrefixOf pfx then
        value.map fun v => { creds with gcp := { creds.gcp with projectID := v } }
      else if "private_key_id".toList.isPrefixOf pfx then
        value.map fun v => { creds with gcp := { creds.gcp with privateKeyID := v } }
      else if "private_key".toList.isPrefixOf pfx then
        value.map fun v => { creds with gcp := { creds.gcp with privateKey := v } }
      else if "client_email".toList.isPrefixOf pfx then
        value.map fun v => { creds with gcp := { creds.gcp with clientEmail := v } }
      else if "client_id".toList.isPrefixOf pfx then
        value.map fun v => { creds with gcp := { creds.gcp with clientID := v } }
      else some creds
    else if provider = "azure".toList then
      if "subscription_id".toList.isPrefixOf line then
        value.map fun v => { creds with azure := { creds.azure with subscriptionID := v } }
      else if "tenant_id".toList.isPrefixOf line then
        value.map fun v => { creds with azure := { creds.azure with tenantID := v } }
      else if "client_id".toList.isPrefixOf line then
        value.map fun v => { creds with azure := { creds.azure with clientID := v } }
      else if "client_secret".toList.isPrefixOf line then
        value.map fun v => { creds with azure := { creds.azure with clientSecret := v } }
      else some creds
    else some creds

/-- Models `parseGCPAndAzureCredentials` in `cmd/add.go`: the input bytes are
split on newlines and folded over `parseCredLine`; `none` models a runtime
panic, and a `some` result corresponds to the Go function returning the
credentials with a nil error. -/
def parseGCPAndAzureCredentials (data : GoStr) (provider : GoStr) :
    Option CloudCredentials :=
  (splitOnChar '\n' data).foldlM (parseCredLine provider) CloudCredentials.empty

/-- One stored account record, from `CloudAccount` in `cmd/add.go`.  The two
`time.Time` fields are abstracted to naturals. -/
structure CloudAccount where
  id : GoStr
  provider : GoStr
  accountName : GoStr
  addedAt : Nat
  lastValidated : Nat
  credentials : CloudCredentials
deriving DecidableEq

/-- The lower-case hexadecimal digit for `n < 16`, as produced by Go
`encoding/hex`. -/
def hexDigitChar (n : Nat) : Char :=
  if n < 10 then Char.ofNat (48 + n) else Char.ofNat (87 + n)

/-- Models Go `hex.EncodeToString` on a byte slice. -/
def hexEncode (bs : List (Fin 256)) : GoStr :=
  bs.flatMap fun b => [hexDigitChar (b.val / 16), hexDigitChar (b.val % 16)]

/-- The byte string written into the SHA-256 hash by `generateAccountID` in
`cmd/add.go`: per provider the two identifying credential fields, and nothing
for an unrecognised provider (the `switch` has no default case). -/
def idInput (a : CloudAccount) : GoStr :=
  if a.provider = "aws".toList then
    a.credentials.aws.accessKeyID ++ a.credentials.aws.region
  else if a.provider = "gcp".toList then
    a.credentials.gcp.projectID ++ a.credentials.gcp.clientEmail
  else if a.provider = "azure".toList then
    a.credentials.azure.subscriptionID ++ a.credentials.azure.clientID
  else []

/-- Models `generateAccountID` in `cmd/add.go`.  The SHA-256 compression
itself lives in Go's `crypto/sha256` and is kept abstract: `sha256Bytes` is
the 32-byte digest function, and the account ID is the first 12 characters of
its hex encoding. -/
def generateAccountID (sha256Bytes : GoStr → List (Fin 256)) (a : CloudAccount) :
    GoStr :=
  (hexEncode (sha256Bytes (idInput a))).take 12

/-- Models `isDuplicateAccount` in `cmd/add.go`. -/
def isDuplicateAccount (sha256Bytes : GoStr → List (Fin 256))
    (accounts : List CloudAccount) (newAccount : CloudAccount) : Bool :=
  accounts.any fun acc => acc.id = generateAccountID sha256Bytes newAccount

/-- The credential manager state: the in-memory `cm.config.Accounts` slice
and the parsed contents of the `cloud_accounts.conf` file that `saveConfig`
writes. -/
structure CredentialStore where
  accounts : List CloudAccount
  file : List CloudAccount
deriving DecidableEq

/-- The `newAccount` literal built by `AddCredentials` before validation:
`LastValidated` is still the zero time and the ID is still empty. -/
def pendingAccount (provider accountName : GoStr) (tAdd : Nat)
    (creds : CloudCredentials) : CloudAccount :=
  { id := [], provider := provider, accountName := accountName,
    addedAt := tAdd, lastValidated := 0, credentials := creds }

/-- The account as appended by `AddCredentials`: `LastValidated` is stamped
and the ID is derived from the stamped record (the ID does not depend on the
timestamps, see `generateAccountID_congr`). -/
def storedAccount (sha256Bytes : GoStr → List (Fin 256))
    (provider accountName : GoStr) (tAdd tValidate : Nat)
    (creds : CloudCredentials) : CloudAccount :=
  let validatedAccount :=
    { pendingAccount provider accountName tAdd creds with
      lastValidated := tValidate }
  { validatedAccount with id := generateAccountID sha256Bytes validatedAccount }

/-- Models `AddCredentials` in `cmd/add.go`.  The outcomes of the three
external calls — `readCredentialsFile` (file read plus parse; an `error`
also covers the unsupported-provider case), `validateCredentials` (the
provider SDK round-trip) and `saveConfig`'s `os.WriteFile` — are passed in
as oracles, and the two `time.Now()` calls are the parameters `tAdd` and
`tValidate`.  The result pairs the new store with the returned error.  The
append to `cm.config.Accounts` happens before `return cm.saveConfig()`, so
a failed config write returns the write error with the in-memory list
already holding the new account and the file unchanged. -/
def AddCredentials (sha256Bytes : GoStr → List (Fin 256))
    (parsed : Except GoStr CloudCredentials) (validated : Except GoStr Unit)
    (saved : Except GoStr Unit) (provider accountName : GoStr)
    (tAdd tValidate : Nat) (cm : CredentialStore) :
    CredentialStore × Option GoStr :=
  match parsed with
  | .error e => (cm, some ("failed to read credentials file: ".toList ++ e))
  | .ok creds =>
    if isDuplicateAccount sha256Bytes cm.accounts
        (pendingAccount provider accountName tAdd creds) then
      (cm, some "duplicate account: credentials for this account already exist".toList)
    else
      match validated with
      | .error e => (cm, some ("credential validation failed: ".toList ++ e))
      | .ok _ =>
        let accounts := cm.accounts ++
          [storedAccount sha256Bytes provider accountName tAdd tValidate creds]
        match saved with
        | .error e => ({ accounts := accounts, file := cm.file }, some e)
        | .ok _ => ({ accounts := accounts, file := accounts }, none)

/-- The stores reachable from the empty store by successful `AddCredentials`
calls (a successful call is one returning a nil error). -/
inductive ReachableStore (sha256Bytes : GoStr → List (Fin 256)) :
    CredentialStore → Prop
  | empty : ReachableStore sha256Bytes ⟨[], []⟩
  | add {st st' : CredentialStore}
      (parsed : Except GoStr CloudCredentials) (validated : Except GoStr Unit)
      (saved : Except GoStr Unit) (provider accountName : GoStr)
      (tAdd tValidate : Nat) :
      ReachableStore sha256Bytes st →
      AddCredentials sha256Bytes parsed validated saved provider accountName
        tAdd tValidate st = (st', none) →
      ReachableStore sha256Bytes st'

/-- The directory picked by `initCommand(customPath string)` in
`cmd/init.go`: `<customPath>/.yogaya` when the argument is non-empty, else
`<home>/.yogaya`. -/
def initYogayaDirV1 (home customPath : GoStr) : GoStr :=
  if customPath ≠ [] then customPath ++ "/.yogaya".toList
  else home ++ "/.yogaya".toList

/-- Models the `Run` closure of the `init` command in `cmd/init.go`, which
invokes `initCommand(args[0])`: with no positional argument the index
expression `args[0]` raises a Go runtime panic, modelled as `none`. -/
def initCommandRunV1 (home : GoStr) (args : List GoStr) : Option GoStr :=
  match args with
  | [] => none
  | a :: _ => some (initYogayaDirV1 home a)

/-- Models `initCommand(cmd, args)` from the `part_002` iteration: fewer than
one argument selects `<home>/.yogaya`, otherwise `<args[0]>/.yogaya`. -/
def initCommandRunV2 (home : GoStr) (args : List GoStr) : GoStr :=
  if args.length < 1 then home ++ "/.yogaya".toList
  else args.headD [] ++ "/.yogaya".toList

/-- Models Go `fmt.Sprintf("%x", t)` for a `time.Time` value, as used by the
`cmd/init.go` iteration.  `time.Time` implements `String() string`, and
`fmt`'s Stringer rule applies to the string-like verb `%x`: the value is
rendered by calling `t.String()` and hex-encoding the bytes of that string
in lower case.  The byte string of `t.String()` is the parameter
`timeBytes`. -/
def goSprintfHexTime (timeBytes : List (Fin 256)) : GoStr :=
  hexEncode timeBytes

/-- The `tenant.conf` contents written by the `cmd/init.go` iteration:
`tenant_key=` followed by `fmt.Sprintf("%x", time.Now())`, i.e. the
lower-case hex encoding of the bytes of `time.Now().String()`. -/
def tenantConfContentV1 (timeBytes : List (Fin 256)) : GoStr :=
  "tenant_key=".toList ++ goSprintfHexTime timeBytes

/-- Models `hashingTime` from the `part_002` iteration: the SHA-256 digest of
the RFC 3339 rendering of the time, hex encoded.  The formatted time string
is the parameter `timeStr` and the digest function is abstract. -/
def hashingTime (sha256Bytes : GoStr → List (Fin 256)) (timeStr : GoStr) : GoStr :=
  hexEncode (sha256Bytes timeStr)

/-- The `tenant.conf` contents written by the `part_002` iteration:
`tenant_key=` followed by `hashingTime` of the current time. -/
def tenantConfContentV2 (sha256Bytes : GoStr → List (Fin 256)) (timeStr : GoStr) :
    GoStr :=
  "tenant_key=".toList ++ hashingTime sha256Bytes timeStr

/-- A character allowed after `tenant_key=` by the spec: a lower-case
hexadecimal digit. -/
def isHexChar (c : Char) : Bool :=
  ('0' ≤ c && c ≤ '9') || ('a' ≤ c && c ≤ 'f')

/-- The shape the spec prescribes for `tenant.conf`: exactly one line of the
form `tenant_key=<hex>`, with no other characters. -/
def TenantConfWellFormed (s : GoStr) : Prop :=
  ∃ k : GoStr, s = "tenant_key=".toList ++ k ∧ ∀ c ∈ k, isHexChar c

/-- One entry observed by `filepath.Walk` under the region directory: its
path, whether it is a directory, and (for files) the bytes `os.ReadFile`
returns. -/
structure WalkEntry where
  path : GoStr
  isDir : Bool
  content : GoStr
deriving DecidableEq

/-- Models Go `filepath.Base` for the slash-separated, non-empty,
no-trailing-slash paths the walk produces. -/
def fpBase (p : GoStr) : GoStr :=
  ((splitOnChar '/' p).getLast?).getD p

/-- The mutable locals of `mergeFiles` in `cmd/generate.go`: the three
`strings.Builder`s and the two single-inclusion flags. -/
structure MergeState where
  providerContent : GoStr
  outputContent : GoStr
  resourceContent : GoStr
  providerWritten : Bool
  outputWritten : Bool
deriving DecidableEq

/-- The initial `mergeFiles` state. -/
def MergeState.start : MergeState := ⟨[], [], [], false, false⟩

/-- The text appended to the resource section for one `.tf` file: its
contents between the `# Start of`/`# End of` markers `mergeFiles` writes. -/
def resourceChunk (e : WalkEntry) : GoStr :=
  "# Start of ".toList ++ fpBase e.path ++ "\n\n".toList ++ e.content ++
    "\n# End of ".toList ++ fpBase e.path ++ "\n\n".toList

/-- One visit of the `filepath.Walk` closure inside `mergeFiles` in
`cmd/generate.go`: directories, the output file itself, `all_resources_in_*`
files and non-`.tf` paths are skipped; the first `provider.tf` and the first
`output.tf` go to their own sections; every other `.tf` file is appended to
the resource section between `# Start of`/`# End of` markers. -/
def mergeStep (outputFileName : GoStr) (st : MergeState) (e : WalkEntry) :
    MergeState :=
  if e.isDir || fpBase e.path = outputFileName then st
  else if "all_resources_in_".toList.isPrefixOf (fpBase e.path) then st
  else if ".tf".toList.isSuffixOf e.path then
    if fpBase e.path = "provider.tf".toList then
      if !st.providerWritten then
        { st with providerContent := st.providerContent ++ e.content ++ ['\n'],
                  providerWritten := true }
      else st
    else if fpBase e.path = "output.tf".toList then
      if !st.outputWritten then
        { st with outputContent := st.outputContent ++ e.content ++ ['\n'],
                  outputWritten := true }
      else st
    else
      { st with resourceContent := st.resourceContent ++ resourceChunk e }
  else st

/-- Models `mergeFiles(regionDir, outputFileName)` in `cmd/generate.go` over
the list of entries the walk visits, returning the path written by
`os.WriteFile` and the merged contents: each non-empty section is emitted
under its header, in provider / output / resource order. -/
def mergeFiles (regionDir outputFileName : GoStr) (entries : List WalkEntry) :
    GoStr × GoStr :=
  let st := entries.foldl (mergeStep outputFileName) MergeState.start
  let merged :=
    (if st.providerContent ≠ [] then
      "# Provider Definitions\n\n".toList ++ st.providerContent else []) ++
    (if st.outputContent ≠ [] then
      "# Output Definitions\n\n".toList ++ st.outputContent else []) ++
    (if st.resourceContent ≠ [] then
      "# Resource Definitions\n\n".toList ++ st.resourceContent else [])
  (regionDir ++ '/' :: outputFileName, merged)

/-- The walk entries `mergeFiles` does not skip: plain `.tf` files other than
the merged output file and other `all_resources_in_*` files. -/
def keptEntry (outputFileName : GoStr) (e : WalkEntry) : Bool :=
  !e.isDir && fpBase e.path ≠ outputFileName &&
    !("all_resources_in_".toList.isPrefixOf (fpBase e.path)) &&
    ".tf".toList.isSuffixOf e.path

/-- Kept entries named `provider.tf`. -/
def isProviderTF (outputFileName : GoStr) (e : WalkEntry) : Bool :=
  keptEntry outputFileName e && fpBase e.path = "provider.tf".toList

/-- Kept entries named `output.tf`. -/
def isOutputTF (outputFileName : GoStr) (e : WalkEntry) : Bool :=
  keptEntry outputFileName e && fpBase e.path ≠ "provider.tf".toList &&
    fpBase e.path = "output.tf".toList

/-- Kept entries that land in the resource section. -/
def isResourceTF (outputFileName : GoStr) (e : WalkEntry) : Bool :=
  keptEntry outputFileName e && fpBase e.path ≠ "provider.tf".toList &&
    fpBase e.path ≠ "output.tf".toList

/-- Written from the claim: the provider section holds the contents of the
first `provider.tf` encountered, exactly once. -/
def specProviderSection (outputFileName : GoStr) (entries : List WalkEntry) :
    GoStr :=
  match (entries.filter (isProviderTF outputFileName)).head? with
  | some e => e.content ++ ['\n']
  | none => []

/-- Written from the claim: the output section holds the contents of the
first `output.tf` encountered, exactly once. -/
def specOutputSection (outputFileName : GoStr) (entries : List WalkEntry) :
    GoStr :=
  match (entries.filter (isOutputTF outputFileName)).head? with
  | some e => e.content ++ ['\n']
  | none => []

/-- Written from the claim: the resource section is the concatenation of all
remaining `.tf` files, each between its markers, in walk order. -/
def specResourceSection (outputFileName : GoStr) (entries : List WalkEntry) :
    GoStr :=
  ((entries.filter (isResourceTF outputFileName)).map resourceChunk).flatten

/-- Written from the claim: the merged file is the three category sections in
order, each present exactly when non-empty, under its header. -/
def specMergedContent (outputFileName : GoStr) (entries : List WalkEntry) :
    GoStr :=
  (if specProviderSection outputFileName entries ≠ [] then
    "# Provider Definitions\n\n".toList ++ specProviderSection outputFileName entries
   else []) ++
  (if specOutputSection outputFileName entries ≠ [] then
    "# Output Definitions\n\n".toList ++ specOutputSection outputFileName entries
   else []) ++
  (if specResourceSection outputFileName entries ≠ [] then
    "# Resource Definitions\n\n".toList ++ specResourceSection outputFileName entries
   else [])

/-- The external operations a region goroutine performs, in the order the
code issues them; the `Bool` on the fallible ones records whether the call
succeeded.  `terraformerImport` also records the credential values placed in
the subprocess environment. -/
inductive RegionStep
  | mkdirRegion (ok : Bool)
  | writeMainTF (ok : Bool)
  | terraformInit (ok : Bool)
  | terraformerImport (envVar1 envVar2 : GoStr) (ok : Bool)
  | mergeRegionFiles (ok : Bool)
  | removeWorkDir
  | removeDotTerraform
  | removeMainTF
  | removeLockFile
deriving DecidableEq

/-- The outcomes the file system, terraform and terraformer hand to one
region goroutine. -/
structure RegionEnv where
  mkdirOk : Bool
  writeOk : Bool
  initOk : Bool
  importOk : Bool
  mergeOk : Bool
deriving DecidableEq

/-- The two kinds of error a region goroutine appends to the shared slice. -/
inductive RegionErr
  | mkdirFailed
  | importFailed
deriving DecidableEq

/-- Models the region goroutine body of `runTerraformerAWS` in
`cmd/generate.go` (lines 131-223; the `cmd/generate_aws.go` iteration has the
same shape): the trace of external operations performed and the error — if
any — appended to the shared `errors` slice.  A `mkdir` failure is appended;
`createMainTF` and `terraform init` failures only print and return; a
`terraformer import` failure is appended; the `mergeFilesOfRefion` result is
discarded, so the removals run even when the merge fails. -/
def awsRegionBody (accessKeyID secretAccessKey : GoStr) (env : RegionEnv) :
    List RegionStep × Option RegionErr :=
  if !env.mkdirOk then ([.mkdirRegion false], some .mkdirFailed)
  else if !env.writeOk then ([.mkdirRegion true, .writeMainTF false], none)
  else if !env.initOk then
    ([.mkdirRegion true, .writeMainTF true, .terraformInit false], none)
  else if !env.importOk then
    ([.mkdirRegion true, .writeMainTF true, .terraformInit true,
      .terraformerImport accessKeyID secretAccessKey false], some .importFailed)
  else
    ([.mkdirRegion true, .writeMainTF true, .terraformInit true,
      .terraformerImport accessKeyID secretAccessKey true,
      .mergeRegionFiles env.mergeOk, .removeWorkDir, .removeDotTerraform,
      .removeMainTF, .removeLockFile], none)

/-- Models the region goroutine body of `runTerraformerGCP` in
`cmd/generate_gcp.go` (lines 96-166): the same error discipline as the AWS
body — only `mkdir` and `terraformer import` failures are appended, a
`terraform init -upgrade` failure only prints and returns, a merge failure is
printed and the removals still run (in the order `.terraform`, lock file,
`main.tf`). -/
def gcpRegionBody (credsFile projectID : GoStr) (env : RegionEnv) :
    List RegionStep × Option RegionErr :=
  if !env.mkdirOk then ([.mkdirRegion false], some .mkdirFailed)
  else if !env.writeOk then ([.mkdirRegion true, .writeMainTF false], none)
  else if !env.initOk then
    ([.mkdirRegion true, .writeMainTF true, .terraformInit false], none)
  else if !env.importOk then
    ([.mkdirRegion true, .writeMainTF true, .terraformInit true,
      .terraformerImport credsFile projectID false], some .importFailed)
  else
    ([.mkdirRegion true, .writeMainTF true, .terraformInit true,
      .terraformerImport credsFile projectID true,
      .mergeRegionFiles env.mergeOk, .removeWorkDir, .removeDotTerraform,
      .removeLockFile, .removeMainTF], none)

/-- The contents of the shared `errors` slice after `wg.Wait()`: for each
region whose goroutine appended an error, that region paired with its
error. -/
def collectRegionErrors (body : RegionEnv → List RegionStep × Option RegionErr)
    (envs : GoStr → RegionEnv) (regions : List GoStr) :
    List (GoStr × RegionErr) :=
  regions.filterMap fun r => ((body (envs r)).2).map fun e => (r, e)

/-- The aggregate result of the fan-out: `none` models the nil return when no
errors were collected, `some errs` the single aggregate error built from the
whole slice. -/
def fanOutResult (body : RegionEnv → List RegionStep × Option RegionErr)
    (envs : GoStr → RegionEnv) (regions : List GoStr) :
    Option (List (GoStr × RegionErr)) :=
  let errs := collectRegionErrors body envs regions
  if errs.isEmpty then none else some errs

/-- The hard-coded AWS region list `getAWSRegions` in `cmd/generate.go`. -/
def getAWSRegions : List GoStr :=
  ["us-east-1".toList, "us-east-2".toList, "us-west-1".toList,
   "us-west-2".toList, "af-south-1".toList, "ap-east-1".toList,
   "ap-south-2".toList, "ap-southeast-3".toList, "ap-southeast-5".toList,
   "ap-southeast-4".toList, "ap-south-1".toList, "ap-northeast-3".toList,
   "ap-northeast-2".toList, "ap-southeast-1".toList, "ap-southeast-2".toList,
   "ap-northeast-1".toList, "ca-central-1".toList, "ca-west-1".toList,
   "cn-north-1".toList, "cn-northwest-1".toList, "eu-central-1".toList,
   "eu-west-1".toList, "eu-west-2".toList, "eu-south-1".toList,
   "eu-west-3".toList, "eu-south-2".toList, "eu-north-1".toList,
   "eu-central-2".toList, "il-central-1".toList, "me-south-1".toList,
   "me-central-1".toList, "sa-east-1".toList]

/-- Models `runTerraformerAWS`'s error aggregation over the fixed region
list. -/
def runTerraformerAWSResult (accessKeyID secretAccessKey : GoStr)
    (envs : GoStr → RegionEnv) : Option (List (GoStr × RegionErr)) :=
  fanOutResult (awsRegionBody accessKeyID secretAccessKey) envs getAWSRegions

/-- Models `runTerraformerGCP`'s error aggregation; the region list is
fetched at run time, so it is a parameter. -/
def runTerraformerGCPResult (credsFile projectID : GoStr)
    (envs : GoStr → RegionEnv) (regions : List GoStr) :
    Option (List (GoStr × RegionErr)) :=
  fanOutResult (gcpRegionBody credsFile projectID) envs regions

/-- A step that is a subprocess invocation that failed (`terraform init` or
`terraformer import`). -/
def isFailedSubprocess : RegionStep → Bool
  | .terraformInit ok => !ok
  | .terraformerImport _ _ ok => !ok
  | _ => false

/-- The position of each step in the fixed order the region body performs
them. -/
def stepIndex : RegionStep → Nat
  | .mkdirRegion _ => 0
  | .writeMainTF _ => 1
  | .terraformInit _ => 2
  | .terraformerImport _ _ _ => 3
  | .mergeRegionFiles _ => 4
  | .removeWorkDir => 5
  | .removeDotTerraform => 6
  | .removeMainTF => 7
  | .removeLockFile => 8

/-- Steps that are `terraformer import` invocations. -/
def isImportStep : RegionStep → Bool
  | .terraformerImport _ _ _ => true
  | _ => false

/-- Steps that are `terraform init` invocations. -/
def isInitStep : RegionStep → Bool
  | .terraformInit _ => true
  | _ => false

/-- `maxConcurrency` in `runTerraformerAWS` (`cmd/generate.go` line 123). -/
def awsMaxConcurrency : Nat := 7

/-- `maxConcurrency` in the `runTerraformerGCP` of `cmd/generate.go`
(line 334). -/
def gcpMaxConcurrencyV1 : Nat := 5

/-- `maxConcurrency` in the `runTerraformerGCP` of `cmd/generate_gcp.go`
(line 86). -/
def gcpMaxConcurrencyV2 : Nat := 7

/-- The scheduling-relevant phase of one region goroutine: blocked on
`sem <- struct{}{}`, holding a semaphore slot and executing the region body,
or finished (slot released). -/
inductive GoPhase
  | waiting
  | running
  | done
deriving DecidableEq

/-- A configuration of the fan-out over `n` region goroutines. -/
abbrev SemConfig (n : Nat) := Fin n → GoPhase

/-- The number of goroutines currently holding a semaphore slot, i.e. past
the acquire and executing the region body. -/
def runningCount {n : Nat} (s : SemConfig n) : Nat :=
  (Finset.univ.filter fun i => s i = GoPhase.running).card

/-- The interleaving semantics of the channel semaphore: a waiting goroutine
may acquire a slot only while fewer than `cap` slots are taken (the buffered
channel send blocks otherwise), and a running goroutine may finish, releasing
its slot.  Any region may step at any time: no order between regions is
imposed. -/
inductive SemStep (cap : Nat) {n : Nat} : SemConfig n → SemConfig n → Prop
  | acquire (s : SemConfig n) (i : Fin n) :
      s i = GoPhase.waiting → runningCount s < cap →
      SemStep cap s (Function.update s i GoPhase.running)
  | release (s : SemConfig n) (i : Fin n) :
      s i = GoPhase.running →
      SemStep cap s (Function.update s i GoPhase.done)

/-- The initial configuration: every region goroutine has been spawned and
is waiting at the semaphore. -/
def semInit (n : Nat) : SemConfig n := fun _ => GoPhase.waiting

/-- The configurations reachable during one account's fan-out. -/
def SemReachable (cap n : Nat) (s : SemConfig n) : Prop :=
  Relation.ReflTransGen (SemStep cap) (semInit n) s

/-- The store invariant the spec asserts: every stored ID is derived from
the account's identifying fields, and IDs are pairwise distinct. -/
def StoreIDInvariant (sha256Bytes : GoStr → List (Fin 256))
    (st : CredentialStore) : Prop :=
  (∀ a ∈ st.accounts, a.id = generateAccountID sha256Bytes a) ∧
  (st.accounts.map CloudAccount.id).Nodup

/-- A stand-in digest function used to instantiate theorems at concrete
inputs (the store-level properties hold for every digest function, SHA-256
included). -/
def shaDummy : GoStr → List (Fin 256) := fun _ => List.replicate 32 0

/-- A region environment in which every external call succeeds. -/
def envAllOk : RegionEnv := ⟨true, true, true, true, true⟩

/-- Environments in which `terraform init` fails in us-east-1 and everything
else succeeds. -/
def envsInitFailUsEast1 : GoStr → RegionEnv := fun r =>
  if r = "us-east-1".toList then ⟨true, true, false, true, true⟩ else envAllOk

/-- A region environment in which only the merge step fails. -/
def envMergeFails : RegionEnv := ⟨true, true, true, true, false⟩

/-- A small walk for instantiating the merge theorem: a provider file, a
resource file, an output file and a directory. -/
def sampleEntries : List WalkEntry :=
  [⟨"r1/aws".toList, true, []⟩,
   ⟨"r1/aws/provider.tf".toList, false, "P".toList⟩,
   ⟨"r1/aws/vpc.tf".toList, false, "V".toList⟩,
   ⟨"r1/aws/output.tf".toList, false, "O".toList⟩]

/-- Empty credentials paired with the aws provider tag, for concrete store
instantiations. -/
def sampleStoredAccount : CloudAccount :=
  storedAccount shaDummy "aws".toList "acct".toList 1 2 CloudCredentials.empty

/-- The store holding exactly `sampleStoredAccount`. -/
def sampleStore : CredentialStore :=
  ⟨[sampleStoredAccount], [sampleStoredAccount]⟩

section MainTheorems

/-- Auxiliary: hex digits produced by `hexDigitChar` on inputs below 16 are
hexadecimal characters. -/
theorem hexDigitChar_isHex {n : Nat} (h : n < 16) : isHexChar (hexDigitChar n) = true := by
  interval_cases n <;> decide

/-- Auxiliary: every character of a hex-encoded byte string is a
hexadecimal character. -/
theorem hexEncode_isHex (bs : List (Fin 256)) : ∀ c ∈ hexEncode bs, isHexChar c = true := by
  intro c hc
  rw [hexEncode, List.mem_flatMap] at hc
  obtain ⟨b, _, hc⟩ := hc
  have hb := b.isLt
  have hc2 : c = hexDigitChar (b.val / 16) ∨ c = hexDigitChar (b.val % 16) := by
    simpa using hc
  rcases hc2 with h | h <;> subst h
  · exact hexDigitChar_isHex ((Nat.div_lt_iff_lt_mul (by norm_num)).2 (by omega))
  · exact hexDigitChar_isHex (Nat.mod_lt _ (by norm_num))

/-- C9: the claim says `parseGCPAndAzureCredentials` returns credentials and
a nil error for every input without panicking.  The code is wrong: a
non-comment line that starts with a recognised key but contains no `':'`
makes `strings.SplitN(line, ":", 2)[1]` index out of range (modelled as
`none`), for GCP and Azure alike; a well-formed line still parses. -/
theorem C9_parser_panics :
    parseGCPAndAzureCredentials "project_id".toList "gcp".toList = none ∧
    parseGCPAndAzureCredentials "subscription_id".toList "azure".toList = none ∧
    parseGCPAndAzureCredentials "project_id: p".toList "gcp".toList ≠ none := by
  decide

/-- C7: the claim says `init` with zero positional arguments completes and
creates `.yogaya` under the home directory, and with one argument under
`<path>/.yogaya`.  The `part_002` iteration does exactly that, but the
`cmd/init.go` iteration evaluates `args[0]` in its `Run` closure, a Go
runtime panic (modelled as `none`) on zero arguments — while its own
`initCommand` still carries the dead empty-path default showing the claim is
the intent. -/
theorem C7_init_zero_args_panics :
    initCommandRunV1 "/home/u".toList [] = none ∧
    initCommandRunV2 "/home/u".toList [] = "/home/u/.yogaya".toList ∧
    initCommandRunV1 "/home/u".toList ["/tmp".toList] = some "/tmp/.yogaya".toList ∧
    initCommandRunV2 "/home/u".toList ["/tmp".toList] = "/tmp/.yogaya".toList := by
  decide

/-- C8: for every run of `init`, in both iterations, the written
`tenant.conf` is exactly `tenant_key=` followed by a hexadecimal string and
contains no newline (hence a single line).  In `cmd/init.go` the key is
`fmt.Sprintf("%x", time.Now())`, which by `fmt`'s Stringer rule hex-encodes
the bytes of `time.Now().String()`; in the `part_002` iteration it is the
hex-encoded SHA-256 digest from `hashingTime`. -/
theorem C8_tenant_conf_hex (timeBytes : List (Fin 256))
    (sha256Bytes : GoStr → List (Fin 256)) (timeStr : GoStr) :
    (TenantConfWellFormed (tenantConfContentV1 timeBytes) ∧
      '\n' ∉ tenantConfContentV1 timeBytes) ∧
    (TenantConfWellFormed (tenantConfContentV2 sha256Bytes timeStr) ∧
      '\n' ∉ tenantConfContentV2 sha256Bytes timeStr) := by
  refine ⟨⟨?_, ?_⟩, ?_, ?_⟩
  · exact ⟨hexEncode timeBytes, rfl, fun c hc => hexEncode_isHex _ c hc⟩
  · intro hmem
    rw [tenantConfContentV1, goSprintfHexTime] at hmem
    rcases List.mem_append.1 hmem with h | h
    · revert h; decide
    · have := hexEncode_isHex _ _ h
      simp [isHexChar] at this
  · exact ⟨hexEncode (sha256Bytes timeStr), rfl, fun c hc => hexEncode_isHex _ c hc⟩
  · intro hmem
    rw [tenantConfContentV2, hashingTime] at hmem
    rcases List.mem_append.1 hmem with h | h
    · revert h; decide
    · have := hexEncode_isHex _ _ h
      simp [isHexChar] at this

/-- C8 witness: the statement instantiated at a concrete time byte string,
digest function and time string. -/
theorem C8_tenant_conf_hex_witness :
    (TenantConfWellFormed (tenantConfContentV1 (List.replicate 4 50)) ∧
      '\n' ∉ tenantConfContentV1 (List.replicate 4 50)) ∧
    (TenantConfWellFormed (tenantConfContentV2 shaDummy "2024-01-01T00:00:00Z".toList) ∧
      '\n' ∉ tenantConfContentV2 shaDummy "2024-01-01T00:00:00Z".toList) :=
  C8_tenant_conf_hex (List.replicate 4 50) shaDummy "2024-01-01T00:00:00Z".toList

/-- Auxiliary: the account ID depends only on the provider tag and the
credential record. -/
theorem generateAccountID_congr (sha : GoStr → List (Fin 256)) {a b : CloudAccount}
    (hp : a.provider = b.provider) (hc : a.credentials = b.credentials) :
    generateAccountID sha a = generateAccountID sha b := by
  unfold generateAccountID idInput
  rw [hp, hc]

/-- Auxiliary: the hashed input string depends only on the provider tag and
the two identifying fields of that provider. -/
theorem idInput_congr {a b : CloudAccount} (hp : a.provider = b.provider)
    (haws : a.provider = "aws".toList →
      a.credentials.aws.accessKeyID = b.credentials.aws.accessKeyID ∧
      a.credentials.aws.region = b.credentials.aws.region)
    (hgcp : a.provider = "gcp".toList →
      a.credentials.gcp.projectID = b.credentials.gcp.projectID ∧
      a.credentials.gcp.clientEmail = b.credentials.gcp.clientEmail)
    (haz : a.provider = "azure".toList →
      a.credentials.azure.subscriptionID = b.credentials.azure.subscriptionID ∧
      a.credentials.azure.clientID = b.credentials.azure.clientID) :
    idInput a = idInput b := by
  unfold idInput
  rw [← hp]
  split_ifs with h1 h2 h3
  · obtain ⟨x, y⟩ := haws h1
    rw [x, y]
  · obtain ⟨x, y⟩ := hgcp h2
    rw [x, y]
  · obtain ⟨x, y⟩ := haz h3
    rw [x, y]
  · rfl

/-- Auxiliary: a stored account record carries the ID derived from its own
fields. -/
theorem storedAccount_id (sha256Bytes : GoStr → List (Fin 256)) (p n : GoStr)
    (t1 t2 : Nat) (c : CloudCredentials) :
    (storedAccount sha256Bytes p n t1 t2 c).id =
      generateAccountID sha256Bytes (storedAccount sha256Bytes p n t1 t2 c) := by
  have h := generateAccountID_congr (a := storedAccount sha256Bytes p n t1 t2 c)
    (b := { pendingAccount p n t1 c with lastValidated := t2 }) sha256Bytes rfl rfl
  rw [h]
  rfl

/-- Auxiliary: the stored ID equals the ID computed during the duplicate
check (timestamps do not enter the hash). -/
theorem storedAccount_id_pending (sha256Bytes : GoStr → List (Fin 256)) (p n : GoStr)
    (t1 t2 : Nat) (c : CloudCredentials) :
    generateAccountID sha256Bytes (storedAccount sha256Bytes p n t1 t2 c) =
      generateAccountID sha256Bytes (pendingAccount p n t1 c) :=
  generateAccountID_congr sha256Bytes rfl rfl

/-- Auxiliary: a successful `AddCredentials` call means the parse succeeded,
the duplicate check passed, validation succeeded, the config write
succeeded, and the store became the old accounts plus the new one, saved to
file. -/
theorem addCredentials_ok_elim {sha256Bytes : GoStr → List (Fin 256)}
    {parsed : Except GoStr CloudCredentials} {validated saved : Except GoStr Unit}
    {provider accountName : GoStr} {tAdd tValidate : Nat} {cm st' : CredentialStore}
    (h : AddCredentials sha256Bytes parsed validated saved provider accountName
        tAdd tValidate cm = (st', none)) :
    ∃ creds, parsed = Except.ok creds ∧
      isDuplicateAccount sha256Bytes cm.accounts
        (pendingAccount provider accountName tAdd creds) = false ∧
      st' = ⟨cm.accounts ++ [storedAccount sha256Bytes provider accountName tAdd tValidate creds],
             cm.accounts ++ [storedAccount sha256Bytes provider accountName tAdd tValidate creds]⟩ := by
  rcases parsed with e | creds
  · simp [AddCredentials] at h
  · by_cases hdup : isDuplicateAccount sha256Bytes cm.accounts
        (pendingAccount provider accountName tAdd creds) = true
    · simp [AddCredentials, hdup] at h
    · have hdupf : isDuplicateAccount sha256Bytes cm.accounts
          (pendingAccount provider accountName tAdd creds) = false := by
        simpa using hdup
      rcases validated with e | u
      · simp [AddCredentials, hdupf] at h
      · cases u
        rcases saved with e | u
        · simp [AddCredentials, hdupf] at h
        · cases u
          simp [AddCredentials, hdupf] at h
          exact ⟨creds, rfl, hdupf, h.symm⟩

/-- Auxiliary: the ID invariant holds in every reachable store. -/
theorem reachable_invariant {sha256Bytes : GoStr → List (Fin 256)}
    {st : CredentialStore} (h : ReachableStore sha256Bytes st) :
    StoreIDInvariant sha256Bytes st := by
  induction h with
  | empty => exact ⟨by simp, by simp⟩
  | add parsed validated saved provider accountName tAdd tValidate hre heq ih =>
    obtain ⟨creds, hparsed, hdup, hst⟩ := addCredentials_ok_elim heq
    subst hst
    obtain ⟨ihall, ihnodup⟩ := ih
    refine ⟨?_, ?_⟩
    · intro a ha
      rcases List.mem_append.1 ha with h1 | h1
      · exact ihall a h1
      · rw [List.mem_singleton] at h1
        subst h1
        exact storedAccount_id sha256Bytes provider accountName tAdd tValidate creds
    · rw [List.map_append, List.nodup_append]
      refine ⟨ihnodup, List.nodup_singleton _, ?_⟩
      intro x hx hx2
      rw [List.map_singleton, List.mem_singleton] at hx2
      subst hx2
      rw [List.mem_map] at hx
      obtain ⟨acc, hacc, haccid⟩ := hx
      simp only [isDuplicateAccount, List.any_eq_false, decide_eq_true_eq] at hdup
      exact hdup acc hacc (haccid.trans
        ((storedAccount_id sha256Bytes provider accountName tAdd tValidate creds).trans
          (storedAccount_id_pending sha256Bytes provider accountName tAdd tValidate creds)))

/-- C6: starting from the empty store, after any sequence of successful
`AddCredentials` calls, every stored account's ID is the first 12 hex
characters of the digest of its provider-specific identifying fields
(`idInput` is AccessKeyID+Region for aws, ProjectID+ClientEmail for gcp,
SubscriptionID+ClientID for azure), and no two stored accounts share an ID.
The SHA-256 digest itself lives in Go's standard library and is abstracted
as `sha256Bytes`. -/
theorem C6_store_id_invariant (sha256Bytes : GoStr → List (Fin 256)) (st : CredentialStore)
    (h : ReachableStore sha256Bytes st) :
    (∀ a ∈ st.accounts, a.id = (hexEncode (sha256Bytes (idInput a))).take 12) ∧
    (st.accounts.map CloudAccount.id).Nodup :=
  reachable_invariant h

/-- C6 witness: the invariant read off a store reached by one concrete
successful add. -/
theorem C6_store_id_invariant_witness :
    (∀ a ∈ sampleStore.accounts, a.id = (hexEncode (shaDummy (idInput a))).take 12) ∧
    (sampleStore.accounts.map CloudAccount.id).Nodup :=
  C6_store_id_invariant shaDummy sampleStore
    (ReachableStore.add (Except.ok CloudCredentials.empty) (Except.ok ())
      (Except.ok ()) "aws".toList "acct".toList 1 2 ReachableStore.empty
      (by decide))

/-- C10: `generateAccountID` is a function of only the provider tag and that
provider's two identifying credential fields — all other fields (account
name, timestamps, the remaining credential fields) are irrelevant — and
consequently `AddCredentials` rejects a second account agreeing on those
fields as a duplicate even under a different account name. -/
theorem C10_id_depends_only_on_fields :
    (∀ (sha256Bytes : GoStr → List (Fin 256)) (a b : CloudAccount),
      a.provider = b.provider →
      (a.provider = "aws".toList →
        a.credentials.aws.accessKeyID = b.credentials.aws.accessKeyID ∧
        a.credentials.aws.region = b.credentials.aws.region) →
      (a.provider = "gcp".toList →
        a.credentials.gcp.projectID = b.credentials.gcp.projectID ∧
        a.credentials.gcp.clientEmail = b.credentials.gcp.clientEmail) →
      (a.provider = "azure".toList →
        a.credentials.azure.subscriptionID = b.credentials.azure.subscriptionID ∧
        a.credentials.azure.clientID = b.credentials.azure.clientID) →
      generateAccountID sha256Bytes a = generateAccountID sha256Bytes b) ∧
    (∀ (sha256Bytes : GoStr → List (Fin 256)) (cm : CredentialStore)
      (a : CloudAccount) (creds : CloudCredentials) (validated saved : Except GoStr Unit)
      (provider accountName : GoStr) (tAdd tValidate : Nat),
      a ∈ cm.accounts →
      a.id = generateAccountID sha256Bytes a →
      idInput (pendingAccount provider accountName tAdd creds) = idInput a →
      AddCredentials sha256Bytes (Except.ok creds) validated saved provider
          accountName tAdd tValidate cm =
        (cm, some "duplicate account: credentials for this account already exist".toList)) := by
  constructor
  · intro sha256Bytes a b hp haws hgcp haz
    unfold generateAccountID
    rw [idInput_congr hp haws hgcp haz]
  · intro sha256Bytes cm a creds validated saved provider accountName tAdd tValidate hmem hid hinput
    have hacc : a.id = generateAccountID sha256Bytes
        (pendingAccount provider accountName tAdd creds) := by
      rw [hid]
      unfold generateAccountID
      rw [hinput]
    have hdup : isDuplicateAccount sha256Bytes cm.accounts
        (pendingAccount provider accountName tAdd creds) = true := by
      rw [isDuplicateAccount, List.any_eq_true]
      exact ⟨a, hmem, decide_eq_true hacc⟩
    simp [AddCredentials, hdup]

/-- C10 witness: two concrete accounts differing only in name and
timestamps get the same ID, and adding a same-fields account to a store
already holding one is rejected as a duplicate. -/
theorem C10_id_depends_only_on_fields_witness :
    generateAccountID shaDummy (pendingAccount "aws".toList "n1".toList 0 CloudCredentials.empty) =
      generateAccountID shaDummy (pendingAccount "aws".toList "n2".toList 5 CloudCredentials.empty) ∧
    AddCredentials shaDummy (Except.ok CloudCredentials.empty) (Except.ok ())
        (Except.ok ()) "aws".toList "other-name".toList 7 8 sampleStore =
      (sampleStore, some "duplicate account: credentials for this account already exist".toList) :=
  ⟨C10_id_depends_only_on_fields.1 shaDummy _ _ rfl (fun _ => ⟨rfl, rfl⟩) (fun _ => ⟨rfl, rfl⟩) (fun _ => ⟨rfl, rfl⟩),
   C10_id_depends_only_on_fields.2 shaDummy sampleStore sampleStoredAccount CloudCredentials.empty (Except.ok ())
     (Except.ok ()) "aws".toList "other-name".toList 7 8 (by decide) (by decide) (by decide)⟩

/-- C5 counterexample: the claim says the account is appended and the file
written exactly when parse, duplicate check and validation all pass, and
that on any failure both are unchanged.  In `cmd/add.go` the append precedes
`return cm.saveConfig()`, so in the run where all three guards pass and
`os.WriteFile` fails, `AddCredentials` returns a non-nil error with the
in-memory list already holding the new account and the file unwritten. -/
theorem C5_counterexample :
    (AddCredentials shaDummy (Except.ok CloudCredentials.empty) (Except.ok ())
        (Except.error "no such file or directory".toList) "aws".toList
        "acct".toList 1 2 ⟨[], []⟩).2 ≠ none ∧
    isDuplicateAccount shaDummy ([] : List CloudAccount)
      (pendingAccount "aws".toList "acct".toList 1 CloudCredentials.empty) = false ∧
    (AddCredentials shaDummy (Except.ok CloudCredentials.empty) (Except.ok ())
        (Except.error "no such file or directory".toList) "aws".toList
        "acct".toList 1 2 ⟨[], []⟩).1.accounts =
      [storedAccount shaDummy "aws".toList "acct".toList 1 2 CloudCredentials.empty] ∧
    (AddCredentials shaDummy (Except.ok CloudCredentials.empty) (Except.ok ())
        (Except.error "no such file or directory".toList) "aws".toList
        "acct".toList 1 2 ⟨[], []⟩).1.file = [] := by
  decide

/-- C5 (amended): `AddCredentials` appends the account to the in-memory list
exactly when the credentials parse, the derived ID duplicates no stored
account, and validation succeeds; it writes `cloud_accounts.conf` and
returns nil exactly when additionally the config write succeeds.  When a
guard fails it returns the corresponding error with both the list and the
file unchanged; when the guards pass but the write fails it returns the
write error with the account already appended in memory and the file
unchanged. -/
theorem C5_add_credentials_guards_amended (sha256Bytes : GoStr → List (Fin 256))
    (parsed : Except GoStr CloudCredentials) (validated saved : Except GoStr Unit)
    (provider accountName : GoStr) (tAdd tValidate : Nat) (cm : CredentialStore) :
    ((AddCredentials sha256Bytes parsed validated saved provider accountName
        tAdd tValidate cm).2 = none ↔
      ∃ creds, parsed = Except.ok creds ∧
        isDuplicateAccount sha256Bytes cm.accounts
          (pendingAccount provider accountName tAdd creds) = false ∧
        validated = Except.ok () ∧ saved = Except.ok ()) ∧
    (∀ creds, parsed = Except.ok creds →
      isDuplicateAccount sha256Bytes cm.accounts
        (pendingAccount provider accountName tAdd creds) = false →
      validated = Except.ok () →
      (AddCredentials sha256Bytes parsed validated saved provider accountName
          tAdd tValidate cm).1.accounts =
        cm.accounts ++ [storedAccount sha256Bytes provider accountName tAdd tValidate creds] ∧
      (saved = Except.ok () →
        (AddCredentials sha256Bytes parsed validated saved provider accountName
            tAdd tValidate cm).1.file =
          cm.accounts ++ [storedAccount sha256Bytes provider accountName tAdd tValidate creds] ∧
        (AddCredentials sha256Bytes parsed validated saved provider accountName
            tAdd tValidate cm).2 = none) ∧
      (∀ e, saved = Except.error e →
        (AddCredentials sha256Bytes parsed validated saved provider accountName
            tAdd tValidate cm).1.file = cm.file ∧
        (AddCredentials sha256Bytes parsed validated saved provider accountName
            tAdd tValidate cm).2 = some e)) ∧
    (∀ e, parsed = Except.error e →
      AddCredentials sha256Bytes parsed validated saved provider accountName
          tAdd tValidate cm =
        (cm, some ("failed to read credentials file: ".toList ++ e))) ∧
    (∀ creds, parsed = Except.ok creds →
      isDuplicateAccount sha256Bytes cm.accounts
        (pendingAccount provider accountName tAdd creds) = true →
      AddCredentials sha256Bytes parsed validated saved provider accountName
          tAdd tValidate cm =
        (cm, some "duplicate account: credentials for this account already exist".toList)) ∧
    (∀ creds e, parsed = Except.ok creds →
      isDuplicateAccount sha256Bytes cm.accounts
        (pendingAccount provider accountName tAdd creds) = false →
      validated = Except.error e →
      AddCredentials sha256Bytes parsed validated saved provider accountName
          tAdd tValidate cm =
        (cm, some ("credential validation failed: ".toList ++ e))) := by
  rcases parsed with e | creds
  · refine ⟨?_, ?_, ?_, ?_, ?_⟩ <;> simp [AddCredentials]
  · by_cases hdup : isDuplicateAccount sha256Bytes cm.accounts
        (pendingAccount provider accountName tAdd creds) = true
    · refine ⟨?_, ?_, ?_, ?_, ?_⟩
      · simp [AddCredentials, hdup]
      · simp [AddCredentials, hdup]
      · simp [AddCredentials, hdup]
      · simp [AddCredentials, hdup]
      · rintro creds' e h1 h2 h3
        rw [Except.ok.injEq] at h1
        subst h1
        rw [hdup] at h2
        simp at h2
    · have hdupf : isDuplicateAccount sha256Bytes cm.accounts
          (pendingAccount provider accountName tAdd creds) = false := by
        simpa using hdup
      rcases validated with e | u
      · refine ⟨?_, ?_, ?_, ?_, ?_⟩ <;> simp [AddCredentials, hdupf]
      · cases u
        rcases saved with e | u
        · refine ⟨?_, ?_, ?_, ?_, ?_⟩ <;> simp [AddCredentials, hdupf]
        · cases u
          refine ⟨?_, ?_, ?_, ?_, ?_⟩ <;> simp [AddCredentials, hdupf]

/-- C5 witness: the guards-pass clause instantiated at a concrete call on
the empty store, once with a succeeding write. -/
theorem C5_add_credentials_guards_amended_witness :
    (AddCredentials shaDummy (Except.ok CloudCredentials.empty) (Except.ok ())
        (Except.ok ()) "aws".toList "acct".toList 1 2 ⟨[], []⟩).1.accounts =
      [storedAccount shaDummy "aws".toList "acct".toList 1 2 CloudCredentials.empty] ∧
    (AddCredentials shaDummy (Except.ok CloudCredentials.empty) (Except.ok ())
        (Except.ok ()) "aws".toList "acct".toList 1 2 ⟨[], []⟩).1.file =
      [storedAccount shaDummy "aws".toList "acct".toList 1 2 CloudCredentials.empty] ∧
    (AddCredentials shaDummy (Except.ok CloudCredentials.empty) (Except.ok ())
        (Except.ok ()) "aws".toList "acct".toList 1 2 ⟨[], []⟩).2 = none := by
  have h := (C5_add_credentials_guards_amended shaDummy
      (Except.ok CloudCredentials.empty) (Except.ok ()) (Except.ok ())
      "aws".toList "acct".toList 1 2 ⟨[], []⟩).2.1 CloudCredentials.empty rfl
      (by decide) rfl
  exact ⟨by simpa using h.1, by simpa using (h.2.1 rfl).1, (h.2.1 rfl).2⟩

/-- Auxiliary: no goroutine is past the semaphore initially. -/
theorem runningCount_semInit (n : Nat) : runningCount (semInit n) = 0 := by
  simp [runningCount, semInit]

/-- Auxiliary: acquiring a slot increments the running count. -/
theorem runningCount_update_running {n : Nat} (s : SemConfig n) (i : Fin n)
    (h : s i ≠ GoPhase.running) :
    runningCount (Function.update s i GoPhase.running) = runningCount s + 1 := by
  have hset : (Finset.univ.filter fun j =>
      Function.update s i GoPhase.running j = GoPhase.running) =
      insert i (Finset.univ.filter fun j => s j = GoPhase.running) := by
    ext j
    by_cases hj : j = i
    · subst hj
      simp [Function.update_same]
    · simp [Function.update_noteq hj, hj]
  rw [runningCount, hset, Finset.card_insert_of_not_mem (by simp [h]), runningCount]

/-- Auxiliary: moving a goroutine to a non-running phase never increases the running count. -/
theorem runningCount_update_le {n : Nat} (s : SemConfig n) (i : Fin n)
    (v : GoPhase) (hv : v ≠ GoPhase.running) :
    runningCount (Function.update s i v) ≤ runningCount s := by
  apply Finset.card_le_card
  intro j hj
  rw [Finset.mem_filter] at hj ⊢
  obtain ⟨-, hj2⟩ := hj
  refine ⟨Finset.mem_univ j, ?_⟩
  by_cases hij : j = i
  · subst hij
    rw [Function.update_same] at hj2
    exact absurd hj2 hv
  · rwa [Function.update_noteq hij] at hj2

/-- Auxiliary: the semaphore capacity bounds the running count in every reachable configuration. -/
theorem semBound {cap n : Nat} {s : SemConfig n} (h : SemReachable cap n s) :
    runningCount s ≤ cap := by
  induction h with
  | refl => simp [runningCount_semInit]
  | tail hsteps hstep ih =>
    cases hstep with
    | acquire i hw hlt =>
      rw [runningCount_update_running _ i (by rw [hw]; simp)]
      omega
    | release i hr =>
      exact le_trans (runningCount_update_le _ i GoPhase.done (by simp)) ih

/-- Auxiliary: with positive capacity, any region can run to completion before any other has started. -/
theorem semNoOrder {cap n : Nat} (hcap : 0 < cap) (i j : Fin n) (hij : i ≠ j) :
    ∃ s : SemConfig n, SemReachable cap n s ∧
      s i = GoPhase.done ∧ s j = GoPhase.waiting := by
  refine ⟨Function.update (semInit n) i GoPhase.done, ?_, ?_, ?_⟩
  · have h1 : SemStep cap (semInit n)
        (Function.update (semInit n) i GoPhase.running) :=
      SemStep.acquire (semInit n) i rfl (by rw [runningCount_semInit]; exact hcap)
    have h2 : SemStep cap (Function.update (semInit n) i GoPhase.running)
        (Function.update (Function.update (semInit n) i GoPhase.running) i GoPhase.done) :=
      SemStep.release _ i (Function.update_same i GoPhase.running (semInit n))
    have heq : Function.update (Function.update (semInit n) i GoPhase.running) i GoPhase.done =
        Function.update (semInit n) i GoPhase.done := by
      simp [Function.update_idem]
    exact Relation.ReflTransGen.tail (Relation.ReflTransGen.tail
      Relation.ReflTransGen.refl h1) (heq ▸ h2)
  · exact Function.update_same i GoPhase.done (semInit n)
  · rw [Function.update_noteq hij.symm]
    rfl

/-- C2: in every reachable interleaving of one account's fan-out, at most
`maxConcurrency` region goroutines (7 for AWS, 5 in the `cmd/generate.go`
GCP iteration, 7 in the `cmd/generate_gcp.go` one) are simultaneously past
the channel-semaphore acquire and executing the region body; and no order
between distinct regions is imposed — any region can finish before any
other has started. -/
theorem C2_semaphore_bound :
    (∀ (n : Nat) (s : SemConfig n),
      SemReachable awsMaxConcurrency n s → runningCount s ≤ awsMaxConcurrency) ∧
    (∀ (n : Nat) (s : SemConfig n),
      SemReachable gcpMaxConcurrencyV1 n s → runningCount s ≤ gcpMaxConcurrencyV1) ∧
    (∀ (n : Nat) (s : SemConfig n),
      SemReachable gcpMaxConcurrencyV2 n s → runningCount s ≤ gcpMaxConcurrencyV2) ∧
    (∀ (n : Nat) (i j : Fin n), i ≠ j →
      ∃ s : SemConfig n, SemReachable awsMaxConcurrency n s ∧
        s i = GoPhase.done ∧ s j = GoPhase.waiting) :=
  ⟨fun _ _ h => semBound h, fun _ _ h => semBound h, fun _ _ h => semBound h,
   fun _ i j hij => semNoOrder (by decide) i j hij⟩

/-- C2 witness: the bound at the initial configuration of a two-region
fan-out, and a reachable configuration where region 0 finished before
region 1 started. -/
theorem C2_semaphore_bound_witness :
    runningCount (semInit 2) ≤ awsMaxConcurrency ∧
    (∃ s : SemConfig 2, SemReachable awsMaxConcurrency 2 s ∧
      s 0 = GoPhase.done ∧ s 1 = GoPhase.waiting) :=
  ⟨C2_semaphore_bound.1 2 (semInit 2) Relation.ReflTransGen.refl,
   C2_semaphore_bound.2.2.2 2 0 1 (by decide)⟩

/-- Auxiliary: the fan-out returns nil iff no errors were collected, and
otherwise surfaces exactly the collected slice as one aggregate error. -/
theorem fanOutResult_facts (body : RegionEnv → List RegionStep × Option RegionErr)
    (envs : GoStr → RegionEnv) (regions : List GoStr) :
    (fanOutResult body envs regions = none ↔
      collectRegionErrors body envs regions = []) ∧
    (collectRegionErrors body envs regions ≠ [] →
      fanOutResult body envs regions =
        some (collectRegionErrors body envs regions)) := by
  by_cases h : collectRegionErrors body envs regions = [] <;>
    simp [fanOutResult, h, List.isEmpty_iff]

/-- C1 counterexample: the claim says every subprocess failure in a region
goroutine is appended to the shared error slice and surfaced after
`wg.Wait`.  In the run where `terraform init` (a subprocess) fails in
us-east-1 and everything else succeeds, the failure occurs in the trace yet
`runTerraformerAWS` returns nil: init failures are only printed, never
appended. -/
theorem C1_counterexample :
    runTerraformerAWSResult "AK".toList "SK".toList envsInitFailUsEast1 = none ∧
    "us-east-1".toList ∈ getAWSRegions ∧
    RegionStep.terraformInit false ∈
      (awsRegionBody "AK".toList "SK".toList (envsInitFailUsEast1 "us-east-1".toList)).1 := by
  decide

/-- C1 (amended): in both `runTerraformerAWS` and `runTerraformerGCP`, a
region goroutine appends an error exactly for directory-creation failures
and `terraformer import` failures — `terraform init` and `main.tf` write
failures only abort the region silently; each region invokes `terraform
init` and `terraformer import` at most once (no retries); and after
`wg.Wait` the function returns nil iff the collected slice is empty,
otherwise one aggregate error holding exactly the collected per-region
errors. -/
theorem C1_error_collection_amended :
    (∀ (k1 k2 : GoStr) (env : RegionEnv),
      ((awsRegionBody k1 k2 env).2 = some RegionErr.mkdirFailed ↔
        env.mkdirOk = false) ∧
      ((awsRegionBody k1 k2 env).2 = some RegionErr.importFailed ↔
        env.mkdirOk = true ∧ env.writeOk = true ∧ env.initOk = true ∧
          env.importOk = false) ∧
      ((gcpRegionBody k1 k2 env).2 = (awsRegionBody k1 k2 env).2) ∧
      (awsRegionBody k1 k2 env).1.countP isImportStep ≤ 1 ∧
      (awsRegionBody k1 k2 env).1.countP isInitStep ≤ 1 ∧
      (gcpRegionBody k1 k2 env).1.countP isImportStep ≤ 1 ∧
      (gcpRegionBody k1 k2 env).1.countP isInitStep ≤ 1) ∧
    (∀ (k1 k2 : GoStr) (envs : GoStr → RegionEnv),
      (runTerraformerAWSResult k1 k2 envs = none ↔
        collectRegionErrors (awsRegionBody k1 k2) envs getAWSRegions = []) ∧
      (collectRegionErrors (awsRegionBody k1 k2) envs getAWSRegions ≠ [] →
        runTerraformerAWSResult k1 k2 envs =
          some (collectRegionErrors (awsRegionBody k1 k2) envs getAWSRegions))) ∧
    (∀ (credsFile projectID : GoStr) (envs : GoStr → RegionEnv)
        (regions : List GoStr),
      (runTerraformerGCPResult credsFile projectID envs regions = none ↔
        collectRegionErrors (gcpRegionBody credsFile projectID) envs regions = []) ∧
      (collectRegionErrors (gcpRegionBody credsFile projectID) envs regions ≠ [] →
        runTerraformerGCPResult credsFile projectID envs regions =
          some (collectRegionErrors (gcpRegionBody credsFile projectID) envs regions))) := by
  refine ⟨?_, ?_, ?_⟩
  · intro k1 k2 env
    obtain ⟨m, w, i, im, g⟩ := env
    cases m <;> cases w <;> cases i <;> cases im <;>
      simp [awsRegionBody, gcpRegionBody, isImportStep, isInitStep]
  · intro k1 k2 envs
    exact fanOutResult_facts (awsRegionBody k1 k2) envs getAWSRegions
  · intro credsFile projectID envs regions
    exact fanOutResult_facts (gcpRegionBody credsFile projectID) envs regions

/-- C1 witness: the mkdir-failure clause instantiated at a concrete
environment. -/
theorem C1_error_collection_amended_witness :
    (awsRegionBody "k".toList "s".toList envAllOk).2 = some RegionErr.mkdirFailed ↔
      envAllOk.mkdirOk = false :=
  (C1_error_collection_amended.1 "k".toList "s".toList envAllOk).1

/-- C3 counterexample: the claim says a failure at any step skips all later
steps of that region.  In the run where only the merge step fails, the
goroutine still performs all four deletions afterwards, because the
`mergeFilesOfRefion` error is discarded. -/
theorem C3_counterexample :
    (awsRegionBody "AK".toList "SK".toList envMergeFails).1 =
      [RegionStep.mkdirRegion true, RegionStep.writeMainTF true,
       RegionStep.terraformInit true,
       RegionStep.terraformerImport "AK".toList "SK".toList true,
       RegionStep.mergeRegionFiles false, RegionStep.removeWorkDir,
       RegionStep.removeDotTerraform, RegionStep.removeMainTF,
       RegionStep.removeLockFile] ∧
    RegionStep.mergeRegionFiles false ∈
      (awsRegionBody "AK".toList "SK".toList envMergeFails).1 ∧
    RegionStep.removeWorkDir ∈
      (awsRegionBody "AK".toList "SK".toList envMergeFails).1 := by
  decide

/-- C3 (amended): each AWS region goroutine performs its steps in the fixed
order mkdir, write `main.tf`, `terraform init`, `terraformer import` (with
the two AWS credential values in the subprocess environment), merge, then
the four deletions, each step at most once; a failure at any of the first
four steps skips all later steps, while merge and deletion failures are
ignored and the deletions still run. -/
theorem C3_region_step_order_amended (k1 k2 : GoStr) (env : RegionEnv) :
    ((awsRegionBody k1 k2 env).1.map stepIndex).Pairwise (· < ·) ∧
    (env.mkdirOk = false →
      (awsRegionBody k1 k2 env).1 = [RegionStep.mkdirRegion false]) ∧
    (env.mkdirOk = true → env.writeOk = false →
      (awsRegionBody k1 k2 env).1 =
        [RegionStep.mkdirRegion true, RegionStep.writeMainTF false]) ∧
    (env.mkdirOk = true → env.writeOk = true → env.initOk = false →
      (awsRegionBody k1 k2 env).1 =
        [RegionStep.mkdirRegion true, RegionStep.writeMainTF true,
         RegionStep.terraformInit false]) ∧
    (env.mkdirOk = true → env.writeOk = true → env.initOk = true →
      env.importOk = false →
      (awsRegionBody k1 k2 env).1 =
        [RegionStep.mkdirRegion true, RegionStep.writeMainTF true,
         RegionStep.terraformInit true,
         RegionStep.terraformerImport k1 k2 false]) ∧
    (env.mkdirOk = true → env.writeOk = true → env.initOk = true →
      env.importOk = true →
      (awsRegionBody k1 k2 env).1 =
        [RegionStep.mkdirRegion true, RegionStep.writeMainTF true,
         RegionStep.terraformInit true,
         RegionStep.terraformerImport k1 k2 true,
         RegionStep.mergeRegionFiles env.mergeOk, RegionStep.removeWorkDir,
         RegionStep.removeDotTerraform, RegionStep.removeMainTF,
         RegionStep.removeLockFile]) := by
  obtain ⟨m, w, i, im, g⟩ := env
  cases m <;> cases w <;> cases i <;> cases im <;>
    refine ⟨?_, ?_, ?_, ?_, ?_, ?_⟩ <;>
    simp [awsRegionBody, stepIndex]

/-- C3 witness: the mkdir-failure clause instantiated concretely. -/
theorem C3_region_step_order_amended_witness :
    (awsRegionBody "k".toList "s".toList ⟨false, true, true, true, true⟩).1 =
      [RegionStep.mkdirRegion false] :=
  (C3_region_step_order_amended "k".toList "s".toList ⟨false, true, true, true, true⟩).2.1 rfl

/-- Auxiliary: skipped walk entries leave the merge state unchanged. -/
theorem mergeStep_not_kept {o : GoStr} {e : WalkEntry} (st : MergeState)
    (h : keptEntry o e = false) : mergeStep o st e = st := by
  unfold keptEntry at h
  unfold mergeStep
  by_cases h1 : e.isDir = true
  · rw [if_pos (by simp [h1])]
  · by_cases h2 : fpBase e.path = o
    · rw [if_pos (by simp [h2])]
    · have hc1 : ¬(e.isDir || decide (fpBase e.path = o)) = true := by
        simp only [Bool.not_eq_true] at h1
        simp only [h1, Bool.false_or, decide_eq_true_eq]
        exact h2
      rw [if_neg hc1]
      by_cases h3 : "all_resources_in_".toList.isPrefixOf (fpBase e.path) = true
      · rw [if_pos h3]
      · rw [if_neg h3]
        by_cases h4 : ".tf".toList.isSuffixOf e.path = true
        · exfalso
          simp only [Bool.not_eq_true] at h1 h3
          rw [h1, h3, h4] at h
          simp only [Bool.not_false, Bool.true_and, Bool.and_true,
            decide_eq_false_iff_not] at h
          exact h h2
        · rw [if_neg h4]

/-- Auxiliary: a kept `provider.tf` fills the provider section once. -/
theorem mergeStep_provider {o : GoStr} {e : WalkEntry} (st : MergeState)
    (h : isProviderTF o e = true) :
    mergeStep o st e =
      if st.providerWritten then st
      else { st with providerContent := st.providerContent ++ e.content ++ ['\n'],
                     providerWritten := true } := by
  simp only [isProviderTF, keptEntry, Bool.and_eq_true, Bool.not_eq_true',
    decide_eq_true_eq] at h
  obtain ⟨⟨⟨⟨hdir, hofn⟩, hpfx⟩, hsfx⟩, hbase⟩ := h
  unfold mergeStep
  rw [if_neg (by simp only [hdir, Bool.false_or, decide_eq_true_eq]; exact hofn)]
  rw [if_neg (by simp only [hpfx]; exact Bool.false_ne_true)]
  rw [if_pos hsfx]
  rw [if_pos hbase]
  by_cases hw : st.providerWritten = true <;> simp [hw]

/-- Auxiliary: a kept `output.tf` fills the output section once. -/
theorem mergeStep_output {o : GoStr} {e : WalkEntry} (st : MergeState)
    (h : isOutputTF o e = true) :
    mergeStep o st e =
      if st.outputWritten then st
      else { st with outputContent := st.outputContent ++ e.content ++ ['\n'],
                     outputWritten := true } := by
  simp only [isOutputTF, keptEntry, Bool.and_eq_true, Bool.not_eq_true',
    decide_eq_true_eq] at h
  obtain ⟨⟨⟨⟨⟨hdir, hofn⟩, hpfx⟩, hsfx⟩, hnp⟩, hbase⟩ := h
  unfold mergeStep
  rw [if_neg (by simp only [hdir, Bool.false_or, decide_eq_true_eq]; exact hofn)]
  rw [if_neg (by simp only [hpfx]; exact Bool.false_ne_true)]
  rw [if_pos hsfx]
  rw [if_neg hnp]
  rw [if_pos hbase]
  by_cases hw : st.outputWritten = true <;> simp [hw]

/-- Auxiliary: any other kept `.tf` file is appended to the resource section. -/
theorem mergeStep_resource {o : GoStr} {e : WalkEntry} (st : MergeState)
    (h : isResourceTF o e = true) :
    mergeStep o st e =
      { st with resourceContent := st.resourceContent ++ resourceChunk e } := by
  simp only [isResourceTF, keptEntry, Bool.and_eq_true, Bool.not_eq_true',
    decide_eq_true_eq] at h
  obtain ⟨⟨⟨⟨⟨hdir, hofn⟩, hpfx⟩, hsfx⟩, hnp⟩, hno⟩ := h
  unfold mergeStep
  rw [if_neg (by simp only [hdir, Bool.false_or, decide_eq_true_eq]; exact hofn)]
  rw [if_neg (by simp only [hpfx]; exact Bool.false_ne_true)]
  rw [if_pos hsfx]
  rw [if_neg hnp]
  rw [if_neg hno]

/-- Auxiliary: the three entry classes are mutually exclusive. -/
theorem isProviderTF_excl {o : GoStr} {e : WalkEntry} (h : isProviderTF o e = true) :
    isOutputTF o e = false ∧ isResourceTF o e = false := by
  unfold isProviderTF at h
  rw [Bool.and_eq_true] at h
  have hbase := of_decide_eq_true h.2
  unfold isOutputTF isResourceTF
  rw [hbase]
  constructor <;> simp

/-- Auxiliary: the three entry classes are mutually exclusive. -/
theorem isOutputTF_excl {o : GoStr} {e : WalkEntry} (h : isOutputTF o e = true) :
    isProviderTF o e = false ∧ isResourceTF o e = false := by
  unfold isOutputTF at h
  rw [Bool.and_eq_true, Bool.and_eq_true] at h
  have hbase := of_decide_eq_true h.2
  unfold isProviderTF isResourceTF
  rw [hbase]
  constructor <;> simp

/-- Auxiliary: the three entry classes are mutually exclusive. -/
theorem isResourceTF_excl {o : GoStr} {e : WalkEntry} (h : isResourceTF o e = true) :
    isProviderTF o e = false ∧ isOutputTF o e = false := by
  unfold isResourceTF at h
  rw [Bool.and_eq_true, Bool.and_eq_true] at h
  have hnp := of_decide_eq_true h.1.2
  have hno := of_decide_eq_true h.2
  unfold isProviderTF isOutputTF
  rw [decide_eq_false hnp, decide_eq_false hno]
  constructor <;> simp

/-- Auxiliary: an entry in no class is not kept. -/
theorem kept_eq_false_of_classes {o : GoStr} {e : WalkEntry}
    (h1 : isProviderTF o e = false) (h2 : isOutputTF o e = false)
    (h3 : isResourceTF o e = false) : keptEntry o e = false := by
  cases hk : keptEntry o e
  · rfl
  · exfalso
    unfold isProviderTF at h1
    unfold isOutputTF at h2
    unfold isResourceTF at h3
    rw [hk, Bool.true_and] at h1 h2 h3
    have hnp := of_decide_eq_false h1
    rw [decide_eq_true (show fpBase e.path ≠ "provider.tf".toList from hnp),
      Bool.true_and] at h2 h3
    have hno := of_decide_eq_false h2
    rw [decide_eq_true (show fpBase e.path ≠ "output.tf".toList from hno)] at h3
    simp at h3

/-- Auxiliary: unfolding the provider section over one entry. -/
theorem specProviderSection_cons (o : GoStr) (e : WalkEntry) (es : List WalkEntry) :
    specProviderSection o (e :: es) =
      if isProviderTF o e then e.content ++ ['\n'] else specProviderSection o es := by
  by_cases h : isProviderTF o e = true <;>
    simp [specProviderSection, List.filter_cons, h]

/-- Auxiliary: unfolding the output section over one entry. -/
theorem specOutputSection_cons (o : GoStr) (e : WalkEntry) (es : List WalkEntry) :
    specOutputSection o (e :: es) =
      if isOutputTF o e then e.content ++ ['\n'] else specOutputSection o es := by
  by_cases h : isOutputTF o e = true <;>
    simp [specOutputSection, List.filter_cons, h]

/-- Auxiliary: unfolding the resource section over one entry. -/
theorem specResourceSection_cons (o : GoStr) (e : WalkEntry) (es : List WalkEntry) :
    specResourceSection o (e :: es) =
      (if isResourceTF o e then resourceChunk e else []) ++
        specResourceSection o es := by
  by_cases h : isResourceTF o e = true <;>
    simp [specResourceSection, List.filter_cons, h]

/-- Auxiliary: the walk fold computes exactly the three specified sections. -/
theorem mergeFoldSpec (o : GoStr) (es : List WalkEntry) (st : MergeState) :
    (es.foldl (mergeStep o) st).providerWritten =
      (st.providerWritten || es.any (isProviderTF o)) ∧
    (es.foldl (mergeStep o) st).providerContent =
      st.providerContent ++
        (if st.providerWritten then [] else specProviderSection o es) ∧
    (es.foldl (mergeStep o) st).outputWritten =
      (st.outputWritten || es.any (isOutputTF o)) ∧
    (es.foldl (mergeStep o) st).outputContent =
      st.outputContent ++
        (if st.outputWritten then [] else specOutputSection o es) ∧
    (es.foldl (mergeStep o) st).resourceContent =
      st.resourceContent ++ specResourceSection o es := by
  induction es generalizing st with
  | nil =>
    refine ⟨by simp, ?_, by simp, ?_, by simp [specResourceSection]⟩ <;>
      by_cases hw : st.providerWritten = true <;>
      by_cases ho : st.outputWritten = true <;>
      simp [hw, ho, specProviderSection, specOutputSection]
  | cons e es ih =>
    rw [List.foldl_cons, List.any_cons, List.any_cons,
      specProviderSection_cons, specOutputSection_cons, specResourceSection_cons]
    by_cases hp : isProviderTF o e = true
    · have hex := isProviderTF_excl hp
      rw [mergeStep_provider st hp]
      by_cases hw : st.providerWritten = true
      · rw [if_pos hw]
        obtain ⟨i1, i2, i3, i4, i5⟩ := ih st
        rw [i1, i2, i3, i4, i5]
        simp [hp, hex.1, hex.2, hw]
      · rw [if_neg hw]
        simp only [Bool.not_eq_true] at hw
        obtain ⟨i1, i2, i3, i4, i5⟩ := ih { st with
          providerContent := st.providerContent ++ e.content ++ ['\n'],
          providerWritten := true }
        rw [i1, i2, i3, i4, i5]
        simp [hp, hex.1, hex.2, hw]
    · by_cases hq : isOutputTF o e = true
      · have hex := isOutputTF_excl hq
        rw [mergeStep_output st hq]
        by_cases hw : st.outputWritten = true
        · rw [if_pos hw]
          obtain ⟨i1, i2, i3, i4, i5⟩ := ih st
          rw [i1, i2, i3, i4, i5]
          simp [hq, hex.1, hex.2, hw]
        · rw [if_neg hw]
          simp only [Bool.not_eq_true] at hw
          obtain ⟨i1, i2, i3, i4, i5⟩ := ih { st with
            outputContent := st.outputContent ++ e.content ++ ['\n'],
            outputWritten := true }
          rw [i1, i2, i3, i4, i5]
          simp [hq, hex.1, hex.2, hw]
      · by_cases hr : isResourceTF o e = true
        · have hex := isResourceTF_excl hr
          rw [mergeStep_resource st hr]
          obtain ⟨i1, i2, i3, i4, i5⟩ := ih { st with
            resourceContent := st.resourceContent ++ resourceChunk e }
          rw [i1, i2, i3, i4, i5]
          simp [hr, hex.1, hex.2]
        · simp only [Bool.not_eq_true] at hp hq hr
          rw [mergeStep_not_kept st (kept_eq_false_of_classes hp hq hr)]
          obtain ⟨i1, i2, i3, i4, i5⟩ := ih st
          rw [i1, i2, i3, i4, i5]
          simp [hp, hq, hr]

/-- C4: for every region directory and walk, `mergeFiles` writes the single
file `all_resources_in_<region>.tf` into that directory, whose contents are
the category-grouped concatenation of the walked `.tf` files: the first
`provider.tf` exactly once, the first `output.tf` exactly once, every other
`.tf` file in the resource section in walk order, with directories, the
output file itself and `all_resources_in_*` files excluded. -/
theorem C4_merge_content (regionDir region : GoStr) (entries : List WalkEntry) :
    mergeFiles regionDir ("all_resources_in_".toList ++ region ++ ".tf".toList)
        entries =
      (regionDir ++ '/' :: ("all_resources_in_".toList ++ region ++ ".tf".toList),
       specMergedContent ("all_resources_in_".toList ++ region ++ ".tf".toList)
         entries) := by
  obtain ⟨i1, i2, i3, i4, i5⟩ :=
    mergeFoldSpec ("all_resources_in_".toList ++ region ++ ".tf".toList)
      entries MergeState.start
  unfold mergeFiles specMergedContent
  simp only []
  rw [i2, i4, i5]
  simp [MergeState.start]

/-- C4 witness: the merge equation instantiated at a concrete four-entry
walk. -/
theorem C4_merge_content_witness :
    mergeFiles "generated/aws-1".toList
        ("all_resources_in_".toList ++ "r1".toList ++ ".tf".toList)
        sampleEntries =
      ("generated/aws-1".toList ++ '/' ::
        ("all_resources_in_".toList ++ "r1".toList ++ ".tf".toList),
       specMergedContent
         ("all_resources_in_".toList ++ "r1".toList ++ ".tf".toList)
         sampleEntries) :=
  C4_merge_content "generated/aws-1".toList "r1".toList sampleEntries

end MainTheorems

end Yogaya
